import Mathlib

/-!
# Verification of the Zendesk File Renamer core

Shallow embedding, in Lean 4, of the cross-tab ticket-association and
download-rename decision engine of the `zendesk-file-renamer` browser
extension, together with proofs and refutations of the frozen claims about
its specification.

The embedding follows the background service worker (the file registered as
the download-interception worker; referred to below as `background`) and
`src/utils/constants.js`.  JavaScript-specific behaviours that the source
relies on are modelled explicitly:

* JavaScript truthiness of possibly-`undefined` numbers and strings
  (`jsTruthyOptInt`, `jsTruthyOptStr`);
* `String.prototype.replace` with a string pattern, including the `$$`,
  `$&`, `$` + backquote and `$` + quote replacement-pattern escapes
  (`jsSubstitution`, `jsReplaceFirst`);
* `String.prototype.lastIndexOf` returning `-1` on absence
  (`jsLastIndexOf`);
* `new URL(...)` hostname extraction wrapped in `try`/`catch`
  (`parseURL`, an `Option`-returning parser).

External collaborators (settings store, `chrome.tabs` queries, cross-tab
messages) are modelled as an explicit environment record `Env`; the calls a
run actually issues are collected into a `QueryEvent` log so that claims
about "no extraneous calls" are statable.
-/

namespace ZendeskRenamer

/-- JavaScript truthiness of a possibly-`undefined` integer value:
`undefined` and `0` are falsy, every other number (including `-1`) is
truthy.  Used where `background` tests `if (tabId)`. -/
def jsTruthyOptInt : Option Int → Bool
  | none => false
  | some n => n != 0

/-- JavaScript truthiness of a possibly-`null`/`undefined` string value:
`null`, `undefined` and the empty string are falsy.  Used where
`background` tests `if (!ticketId)` or `if (response && response.ticketId)`. -/
def jsTruthyOptStr : Option String → Bool
  | none => false
  | some s => s != ""

/-! ## `String.prototype.replace` with a string pattern -/

/-- The `GetSubstitution` step of `String.prototype.replace` for a string
search value: in the replacement string, `$$` produces `$`, `$&` the matched
substring, `$` followed by a backquote the portion before the match, `$`
followed by a single quote the portion after the match; any other `$` is
literal.  (`Char.ofNat 96` is the backquote character, `Char.ofNat 39` the
single quote.) -/
def jsSubstitution : List Char → List Char → List Char → List Char → List Char
  | [], _, _, _ => []
  | c :: r, m, b, a =>
    if c = '$' then
      match r with
      | [] => [c]
      | d :: r2 =>
        if d = '$' then '$' :: jsSubstitution r2 m b a
        else if d = '&' then m ++ jsSubstitution r2 m b a
        else if d = Char.ofNat 96 then b ++ jsSubstitution r2 m b a
        else if d = Char.ofNat 39 then a ++ jsSubstitution r2 m b a
        else '$' :: jsSubstitution (d :: r2) m b a
    else c :: jsSubstitution r m b a

/-- Scan for the first occurrence of `pat`; `seen` is the reversed list of
characters already passed over.  On a match the result is the passed-over
text, the processed replacement, and the rest of the string; if no match is
found the original string is returned unchanged. -/
def replaceFirstGo (pat repl : List Char) : List Char → List Char → List Char
  | seen, s =>
    if pat.isPrefixOf s then
      seen.reverse ++ jsSubstitution repl pat seen.reverse (s.drop pat.length)
        ++ s.drop pat.length
    else
      match s with
      | [] => seen.reverse
      | c :: rest => replaceFirstGo pat repl (c :: seen) rest

/-- JavaScript `s.replace(pat, repl)` for a string `pat`: replaces the first
occurrence only, processing `$`-escapes in `repl`. -/
def jsReplaceFirst (s pat repl : String) : String :=
  ⟨replaceFirstGo pat.data repl.data [] s.data⟩

/-! ## Filename Formatter (`background`, formatting section) -/

/-- `formatFilename(originalFilename, ticketId, formatTemplate)`:
`formatTemplate.replace('{ticket}', ticketId).replace('{filename}', originalFilename)`. -/
def formatFilename (originalFilename ticketId formatTemplate : String) : String :=
  jsReplaceFirst (jsReplaceFirst formatTemplate "{ticket}" ticketId)
    "{filename}" originalFilename

/-- A path-separator character: forward or backward slash (the source
splits on the character class of these two). -/
def isSepChar (c : Char) : Bool := c == '/' || c == '\\'

/-- `extractFilename(fullPath)`: the source splits on `/` and `\` and takes
the last part; equivalently, the suffix of the path after the last
separator (the whole path when it has no separator, the empty string when
it ends in a separator). -/
def extractFilename (fullPath : String) : String :=
  ⟨(fullPath.data.reverse.takeWhile (fun c => !isSepChar c)).reverse⟩

/-- Index of the last occurrence of `c`, if any. -/
def listLastIdx (c : Char) : List Char → Option Nat
  | [] => none
  | x :: xs =>
    match listLastIdx c xs with
    | some n => some (n + 1)
    | none => if x = c then some 0 else none

/-- JavaScript `s.lastIndexOf(c)`: the index of the last occurrence of `c`,
or `-1` when there is none. -/
def jsLastIndexOf (s : List Char) (c : Char) : Int :=
  match listLastIdx c s with
  | some n => (n : Int)
  | none => -1

/-- `reconstructPath(originalPath, newFilename)`: takes the larger of the
last indices of `/` and `\`; if `-1`, returns `newFilename`, else the
prefix of `originalPath` up to and including that separator
(`substring(0, lastSlash + 1)`) concatenated with `newFilename`. -/
def reconstructPath (originalPath newFilename : String) : String :=
  let lastSlash : Int :=
    max (jsLastIndexOf originalPath.data '/') (jsLastIndexOf originalPath.data '\\')
  if lastSlash = -1 then newFilename
  else ⟨originalPath.data.take (lastSlash + 1).toNat⟩ ++ newFilename

/-! ## Already-renamed guard (`background`, inside the download handler) -/

/-- Whitespace for the JavaScript regular-expression class `\s` (the common
members; the exotic Unicode members are irrelevant here because every use
either sees a plain space or fails before the whitespace test). -/
def isJsSpace (c : Char) : Bool :=
  c == ' ' || c == '\t' || c == '\n' || c == '\r' ||
  c == Char.ofNat 11 || c == Char.ofNat 12 || c == Char.ofNat 160

/-- The shape tested by the regular expression `/^\[\d+\]\s/`: an opening
bracket, one or more digits, a closing bracket, then a whitespace
character. -/
def bracketTicketShape (l : List Char) : Bool :=
  match l with
  | '[' :: rest =>
    decide (rest.takeWhile Char.isDigit ≠ []) &&
    (match rest.dropWhile Char.isDigit with
     | ']' :: c :: _ => isJsSpace c
     | _ => false)
  | _ => false

/-- The already-renamed check of the download handler:
`originalFilename.startsWith('ZD-') || /^\[\d+\]\s/.test(originalFilename)`. -/
def isAlreadyRenamed (originalFilename : String) : Bool :=
  ("ZD-".data.isPrefixOf originalFilename.data) ||
  bracketTicketShape originalFilename.data

/-! ## Format templates (`constants.js`) -/

/-- One entry of `FILENAME_FORMATS`.  The source field `example` is renamed
`sample` because `example` is a Lean keyword. -/
structure FormatRec where
  id : String
  label : String
  template : String
  sample : String
deriving DecidableEq

/-- `FILENAME_FORMATS.PREFIX_UNDERSCORE`. -/
def FILENAME_FORMATS_PREFIX_UNDERSCORE : FormatRec :=
  ⟨"prefix_underscore", "ZD-{ticket}_{filename}", "ZD-{ticket}_{filename}",
    "ZD-123456_debug.log"⟩

/-- `FILENAME_FORMATS.BRACKET`. -/
def FILENAME_FORMATS_BRACKET : FormatRec :=
  ⟨"bracket", "[{ticket}] {filename}", "[{ticket}] {filename}", "[123456] debug.log"⟩

/-- `FILENAME_FORMATS.MINIMAL`. -/
def FILENAME_FORMATS_MINIMAL : FormatRec :=
  ⟨"minimal", "{ticket}-{filename}", "{ticket}-{filename}", "123456-debug.log"⟩

/-- `Object.values(FILENAME_FORMATS)` in insertion order. -/
def FILENAME_FORMATS : List FormatRec :=
  [FILENAME_FORMATS_PREFIX_UNDERSCORE, FILENAME_FORMATS_BRACKET, FILENAME_FORMATS_MINIMAL]

/-- `getFormatTemplate(formatId)`: first format whose `id` equals the given
identifier, else the `PREFIX_UNDERSCORE` template.  The argument is an
`Option` so that a missing (`undefined`) stored identifier is
representable; `undefined` compares unequal to every `id`. -/
def getFormatTemplate (formatId : Option String) : String :=
  match FILENAME_FORMATS.find? (fun f => formatId == some f.id) with
  | some f => f.template
  | none => FILENAME_FORMATS_PREFIX_UNDERSCORE.template

/-- `DEFAULT_SETTINGS.format` is the `PREFIX_UNDERSCORE` id. -/
def DEFAULT_FORMAT_ID : String := FILENAME_FORMATS_PREFIX_UNDERSCORE.id

/-! ## URL model (`isZendeskUrl` and the tab-query URL pattern) -/

/-- Parsed components of a URL: the lowercased scheme and the lowercased
hostname (empty for non-special schemes without an authority). -/
structure URLParts where
  scheme : String
  hostname : String
deriving DecidableEq

/-- First character of a scheme: a letter. -/
def isSchemeHeadChar (c : Char) : Bool := c.isAlpha

/-- Subsequent characters of a scheme. -/
def isSchemeTailChar (c : Char) : Bool :=
  c.isAlpha || c.isDigit || c == '+' || c == '-' || c == '.'

/-- The WHATWG special schemes, which require a non-empty host. -/
def specialSchemes : List String := ["http", "https", "ws", "wss", "ftp", "file"]

/-- A character ending the host portion of an authority. -/
def hostEndChar (c : Char) : Bool := c == '/' || c == '?' || c == '#'

/-- Drop any userinfo: keep the part of the authority after the last `@`. -/
def afterLastAt (l : List Char) : List Char :=
  (l.reverse.takeWhile (fun c => c != '@')).reverse

/-- Drop a trailing `:port` from a host-port string. -/
def stripPort (l : List Char) : List Char := l.takeWhile (fun c => c != ':')

/-- ASCII lowercasing of a character list (the URL constructor lowercases
scheme and hostname). -/
def lowerChars (l : List Char) : List Char := l.map Char.toLower

/-- Model of the `new URL(url)` constructor restricted to what
`isZendeskUrl` observes (scheme and hostname); returns `none` where the
constructor throws.  Simplifications relative to WHATWG, all irrelevant to
the recognized-domain checks: no percent-decoding or IDNA of hostnames, no
IPv6 bracket syntax, no whitespace stripping, and special-scheme URLs are
required to carry `//` (WHATWG also accepts e.g. `http:host`). -/
def parseURL (s : String) : Option URLParts :=
  match s.data with
  | [] => none
  | c :: _ =>
    if isSchemeHeadChar c then
      let schemeChars := s.data.takeWhile isSchemeTailChar
      match s.data.drop schemeChars.length with
      | ':' :: rest =>
        let scheme := String.mk (lowerChars schemeChars)
        match rest with
        | '/' :: '/' :: rest2 =>
          let authority := rest2.takeWhile (fun ch => !hostEndChar ch)
          let host := stripPort (afterLastAt authority)
          if host.isEmpty then
            if specialSchemes.contains scheme then none else some ⟨scheme, ""⟩
          else some ⟨scheme, String.mk (lowerChars host)⟩
        | _ =>
          if specialSchemes.contains scheme then none else some ⟨scheme, ""⟩
      | _ => none
    else none

/-- `s.endsWith(suffix)` via the character list. -/
def strEndsWith (s suffix : String) : Bool := suffix.data.isSuffixOf s.data

/-- `isZendeskUrl(url)`: hostname of the parsed URL ends with
`.zendesk.com`, `.zdusercontent.com` or `.zdassets.com`, or equals
`localhost`; `false` whenever the URL constructor throws. -/
def isZendeskUrl (url : String) : Bool :=
  match parseURL url with
  | some u =>
    strEndsWith u.hostname ".zendesk.com" ||
    strEndsWith u.hostname ".zdusercontent.com" ||
    strEndsWith u.hostname ".zdassets.com" ||
    u.hostname == "localhost"
  | none => false

/-- Model of Chrome's URL-pattern filter for the literal pattern
given to `chrome.tabs.query` in the all-tabs fallback,
`*://*.zendesk.com/*`: scheme `*` matches exactly `http` and `https`, host
`*.zendesk.com` matches `zendesk.com` and its subdomains, path `/*`
matches every path. -/
def matchesZendeskTabPattern (url : String) : Bool :=
  match parseURL url with
  | some u =>
    (u.scheme == "http" || u.scheme == "https") &&
    (u.hostname == "zendesk.com" || strEndsWith u.hostname ".zendesk.com")
  | none => false

/-! ## Ticket Registry (`tabTicketMap`) and Lifecycle Synchronizer -/

/-- The Ticket Registry `tabTicketMap : Map<number, string>`, modelled as a
total lookup function (a JavaScript `Map` read through `has`/`get`). -/
def Registry : Type := Int → Option String

/-- `tabTicketMap.set(tabId, ticketId)`. -/
def Registry.set (r : Registry) (tabId : Int) (ticketId : String) : Registry :=
  fun j => if j = tabId then some ticketId else r j

/-- `tabTicketMap.delete(tabId)`. -/
def Registry.del (r : Registry) (tabId : Int) : Registry :=
  fun j => if j = tabId then none else r j

/-- The empty registry (fresh service worker). -/
def Registry.emptyReg : Registry := fun _ => none

/-- `MESSAGE_TYPES.TICKET_UPDATE`. -/
def MESSAGE_TYPES_TICKET_UPDATE : String := "TICKET_UPDATE"

/-- A runtime message as seen by `handleMessage`; the source field `type`
is renamed `kind` because `type` is a Lean keyword.  `ticketId = none`
models a missing or `null` ticket id. -/
structure Message where
  kind : String
  ticketId : Option String
deriving DecidableEq

/-- `handleMessage(message, sender, sendResponse)` restricted to its effect
on the registry.  `senderTabId = none` models `sender.tab?.id` being
`undefined`; a sender tab id of `0` is falsy and is ignored like the
source's `if (tabId)` does. -/
def handleMessage (reg : Registry) (message : Message) (senderTabId : Option Int) :
    Registry :=
  if message.kind == MESSAGE_TYPES_TICKET_UPDATE then
    match senderTabId with
    | some tabId =>
      if tabId != 0 then
        match message.ticketId with
        | some t => if t != "" then reg.set tabId t else reg.del tabId
        | none => reg.del tabId
      else reg
    | none => reg
  else reg

/-- `handleTabRemoved(tabId)`. -/
def handleTabRemoved (reg : Registry) (tabId : Int) : Registry :=
  reg.del tabId

/-- `handleTabUpdated(tabId, changeInfo, tab)` restricted to its effect on
the registry: ignores updates without a URL change (`changeUrl = none` or
the falsy empty string), deletes the mapping when the new URL is not a
recognized domain. -/
def handleTabUpdated (reg : Registry) (tabId : Int) (changeUrl : Option String) :
    Registry :=
  match changeUrl with
  | none => reg
  | some u =>
    if u != "" then
      if isZendeskUrl u then reg else reg.del tabId
    else reg

/-- A registry-mutating external event, as dispatched by the registered
listeners: a runtime message, a tab-removed event, or a tab-updated
event. -/
inductive RegEvent where
  | messageEvent (message : Message) (senderTabId : Option Int)
  | tabRemoved (tabId : Int)
  | tabUpdated (tabId : Int) (changeUrl : Option String)
deriving DecidableEq

/-- Dispatch one external event to its handler. -/
def applyRegEvent (reg : Registry) : RegEvent → Registry
  | .messageEvent m s => handleMessage reg m s
  | .tabRemoved t => handleTabRemoved reg t
  | .tabUpdated t u => handleTabUpdated reg t u

/-- Apply a finite sequence of external events in order. -/
def applyRegEvents (reg : Registry) (es : List RegEvent) : Registry :=
  es.foldl applyRegEvent reg

/-- The effect of a single event on the entry of tab `i`: `none` when the
event does not touch that entry, `some (some t)` when it stores `t`,
`some none` when it removes the entry.  Read off from the three
handlers. -/
def eventAction (i : Int) : RegEvent → Option (Option String)
  | .messageEvent m s =>
    if m.kind == MESSAGE_TYPES_TICKET_UPDATE && s == some i && i != 0 then
      some (match m.ticketId with
            | some t => if t != "" then some t else none
            | none => none)
    else none
  | .tabRemoved t => if t == i then some none else none
  | .tabUpdated t u =>
    if t == i then
      match u with
      | none => none
      | some s => if s != "" && !isZendeskUrl s then some none else none
    else none

/-- The effect of the last event of the sequence that touches tab `i`, if
any event does. -/
def lastWriteFor (i : Int) : List RegEvent → Option (Option String)
  | [] => none
  | e :: rest =>
    match lastWriteFor i rest with
    | some v => some v
    | none => eventAction i e

/-! ## Deadline guard (`createSafeSuggest`) -/

/-- `DOWNLOAD_TIMEOUT_MS`. -/
def DOWNLOAD_TIMEOUT_MS : Nat := 5000

/-- The two stimuli that can hit the guarded `suggest` wrapper built by
`createSafeSuggest`: the main decision logic calling `safeSuggest(options)`
with its computed decision (`some path` = rename, `none` = keep original),
or the timer armed at entry (with delay `DOWNLOAD_TIMEOUT_MS`) firing. -/
inductive SuggestEvent where
  | main (options : Option String)
  | timerFire
deriving DecidableEq

/-- One stimulus against the latch: returns the new latch state and the
argument passed to the underlying `suggest` callback if this stimulus
invoked it (`some none` = invoked with no options, keep original).
The timer's callback runs `safeSuggest()` only when the latch is
still clear, and an invocation sets the latch and disarms the timer. -/
def safeSuggestStep (called : Bool) : SuggestEvent → Bool × Option (Option String)
  | .main o => if called then (called, none) else (true, some o)
  | .timerFire => if called then (called, none) else (true, some none)

/-- All invocations of the underlying `suggest` callback produced by a
sequence of stimuli, starting from a given latch state. -/
def safeSuggestRun (called : Bool) : List SuggestEvent → List (Option String)
  | [] => []
  | e :: es =>
    match safeSuggestStep called e with
    | (c, some inv) => inv :: safeSuggestRun c es
    | (c, none) => safeSuggestRun c es

/-! ## Tab-Context Resolver and Download Decision Engine -/

/-- A browser tab as observed by the core: its id and its URL (the empty
string models a tab whose URL is unavailable). -/
structure Tab where
  id : Int
  url : String
deriving DecidableEq

/-- Extension settings after `getSettings()` resolution (storage fallback
to `DEFAULT_SETTINGS` happens upstream of the decision engine).  `format`
is an `Option` so a stored record missing the field is representable. -/
structure Settings where
  enabled : Bool
  format : Option String
deriving DecidableEq

/-- `DEFAULT_SETTINGS`. -/
def DEFAULT_SETTINGS : Settings := ⟨true, some DEFAULT_FORMAT_ID⟩

/-- A download-determination event: `chrome.downloads` item fields read by
the handler.  `referrer = none` models a missing referrer (the source
collapses it with `|| ''`), `tabId = none` models an absent property. -/
structure DownloadItem where
  filename : String
  referrer : Option String
  tabId : Option Int
deriving DecidableEq

/-- An external collaborator call issued while deciding one download. -/
inductive QueryEvent where
  | sendMessage (tabId : Int)
  | queryActiveTab
  | queryZendeskTabs
deriving DecidableEq

/-- The external world visible to one run of the download handler:
`queryTab i` is the outcome of `chrome.tabs.sendMessage(i, GET_TICKET)`
(`none` = delivery failure or no response; `some s` = a response whose
`ticketId` field is `s`, with the empty string standing for a missing or
`null` field); `activeTab` is the result of the active-tab query (`none` =
query failed or no active tab); `allTabs` are the open tabs,
`allTabsQueryOk` whether the pattern query succeeds. -/
structure Env where
  settings : Settings
  queryTab : Int → Option String
  activeTab : Option Tab
  allTabs : List Tab
  allTabsQueryOk : Bool

/-- Result of one resolution step: the `ticketId` value it assigned
(`none` = it assigned nothing), the registry after its cache-fills, and
the collaborator calls it issued. -/
structure ResolveOut where
  ticketId : Option String
  reg : Registry
  log : List QueryEvent

/-- `getTicketIdForTab(tabId)`: registry first; on a miss, one direct
cross-tab query, caching a truthy response. -/
def getTicketIdForTab (env : Env) (reg : Registry) (tabId : Int) : ResolveOut :=
  match reg tabId with
  | some t => ⟨some t, reg, []⟩
  | none =>
    match env.queryTab tabId with
    | some t =>
      if t != "" then ⟨some t, reg.set tabId t, [.sendMessage tabId]⟩
      else ⟨none, reg, [.sendMessage tabId]⟩
    | none => ⟨none, reg, [.sendMessage tabId]⟩

/-- Fallback method 1 of the download handler: query the active tab of the
current window; if it is on a recognized domain, use its cached ticket if
present, else query its content script and cache a truthy response. -/
def fallbackActiveTab (env : Env) (reg : Registry) : ResolveOut :=
  match env.activeTab with
  | none => ⟨none, reg, [.queryActiveTab]⟩
  | some tab =>
    if isZendeskUrl tab.url then
      match reg tab.id with
      | some t => ⟨some t, reg, [.queryActiveTab]⟩
      | none =>
        match env.queryTab tab.id with
        | some t =>
          if t != "" then
            ⟨some t, reg.set tab.id t, [.queryActiveTab, .sendMessage tab.id]⟩
          else ⟨none, reg, [.queryActiveTab, .sendMessage tab.id]⟩
        | none => ⟨none, reg, [.queryActiveTab, .sendMessage tab.id]⟩
    else ⟨none, reg, [.queryActiveTab]⟩

/-- The content-script loop of fallback method 2: query each candidate tab
in order until a truthy response arrives, caching it. -/
def queryTabsLoop (env : Env) (reg : Registry) : List Tab → ResolveOut
  | [] => ⟨none, reg, []⟩
  | t :: rest =>
    match env.queryTab t.id with
    | some s =>
      if s != "" then ⟨some s, reg.set t.id s, [.sendMessage t.id]⟩
      else
        let r := queryTabsLoop env reg rest
        ⟨r.ticketId, r.reg, .sendMessage t.id :: r.log⟩
    | none =>
      let r := queryTabsLoop env reg rest
      ⟨r.ticketId, r.reg, .sendMessage t.id :: r.log⟩

/-- Fallback method 2 of the download handler: enumerate the tabs matching
`*://*.zendesk.com/*`; prefer the first tab with a cached ticket (whatever
the cached value); otherwise run the content-script loop. -/
def fallbackAllZendeskTabs (env : Env) (reg : Registry) : ResolveOut :=
  if env.allTabsQueryOk then
    let zendeskTabs := env.allTabs.filter (fun t => matchesZendeskTabPattern t.url)
    let cached := zendeskTabs.findSome? (fun t => reg t.id)
    if jsTruthyOptStr cached then ⟨cached, reg, [.queryZendeskTabs]⟩
    else
      let r := queryTabsLoop env reg zendeskTabs
      ⟨(match r.ticketId with | some s => some s | none => cached),
        r.reg, .queryZendeskTabs :: r.log⟩
  else ⟨none, reg, [.queryZendeskTabs]⟩

/-- The decision produced for one download: the suggestion passed to the
completion callback (`none` = keep the original path), the registry after
the run, and the collaborator calls issued. -/
structure DecisionOut where
  suggestion : Option String
  reg : Registry
  log : List QueryEvent

/-- `handleDownloadFilename(downloadItem, suggest)`: the full decision
logic, from the enabled gate through the fallback chain to the
already-renamed guard and path reconstruction.  Mirrors the source's
variable flow: `ticketId` starts `null`, each stage may assign it, and the
stages run under the source's truthiness guards. -/
def handleDownloadFilename (env : Env) (reg : Registry) (item : DownloadItem) :
    DecisionOut :=
  if !env.settings.enabled then ⟨none, reg, []⟩
  else
    let referrerUrl := item.referrer.getD ""
    let tabId := item.tabId
    if !isZendeskUrl referrerUrl && !jsTruthyOptInt tabId then ⟨none, reg, []⟩
    else
      let r1 : ResolveOut :=
        match tabId with
        | some k =>
          if k != 0 && k != -1 then getTicketIdForTab env reg k
          else ⟨none, reg, []⟩
        | none => ⟨none, reg, []⟩
      let r2 : ResolveOut :=
        if !jsTruthyOptStr r1.ticketId && isZendeskUrl referrerUrl then
          let a := fallbackActiveTab env r1.reg
          let t1 : Option String :=
            match a.ticketId with | some s => some s | none => r1.ticketId
          if !jsTruthyOptStr t1 then
            let b := fallbackAllZendeskTabs env a.reg
            ⟨(match b.ticketId with | some s => some s | none => t1),
              b.reg, r1.log ++ a.log ++ b.log⟩
          else ⟨t1, a.reg, r1.log ++ a.log⟩
        else r1
      if !jsTruthyOptStr r2.ticketId then ⟨none, r2.reg, r2.log⟩
      else
        let ticketId := r2.ticketId.getD ""
        let originalFilename := extractFilename item.filename
        if isAlreadyRenamed originalFilename then ⟨none, r2.reg, r2.log⟩
        else
          let formatTemplate := getFormatTemplate env.settings.format
          let newFilename := formatFilename originalFilename ticketId formatTemplate
          let newPath := reconstructPath item.filename newFilename
          ⟨some newPath, r2.reg, r2.log⟩

/-! ## Helper lemmas -/

/-- Once the latch is set, no stimulus reaches the wrapped callback. -/
theorem safeSuggestRun_latched (es : List SuggestEvent) :
    safeSuggestRun true es = [] := by
  induction es with
  | nil => rfl
  | cons e es ih => cases e <;> simp [safeSuggestRun, safeSuggestStep, ih]

/-- With the latch clear, the first stimulus always invokes the callback
(the timer passing no options) and latches. -/
theorem safeSuggestRun_clear_cons (e : SuggestEvent) (es : List SuggestEvent) :
    safeSuggestRun false (e :: es) =
      [match e with | .main o => o | .timerFire => none] := by
  cases e <;> simp [safeSuggestRun, safeSuggestStep, safeSuggestRun_latched]

/-! ## C2: the completion callback is invoked exactly once -/

/-- C2.  The guarded completion handle built by `createSafeSuggest` invokes
the underlying single-use callback at most once over any interleaving of
the main decision logic and the armed timer; whenever the timer stimulus is
part of the run (the timer armed at entry with delay `DOWNLOAD_TIMEOUT_MS`
fires unless already disarmed by an invocation) the callback is invoked
exactly once; and if the timer wins the race, the invocation carries no
options (keep the original filename) and every later result of the main
logic is discarded. -/
theorem safeSuggest_exactly_once (es : List SuggestEvent) :
    (safeSuggestRun false es).length ≤ 1 ∧
    (SuggestEvent.timerFire ∈ es → (safeSuggestRun false es).length = 1) ∧
    (es.head? = some SuggestEvent.timerFire → safeSuggestRun false es = [none]) := by
  refine ⟨?_, ?_, ?_⟩
  · cases es with
    | nil => simp [safeSuggestRun]
    | cons e rest => rw [safeSuggestRun_clear_cons]; simp
  · intro hmem
    cases es with
    | nil => simp at hmem
    | cons e rest => rw [safeSuggestRun_clear_cons]; simp
  · intro hhead
    cases es with
    | nil => simp at hhead
    | cons e rest =>
      simp at hhead
      subst hhead
      rw [safeSuggestRun_clear_cons]

/-- Witness for C2 at a concrete race: the timer fires first, the main
logic completes later with a rename; the callback fires exactly once. -/
theorem safeSuggest_exactly_once_witness :
    (SuggestEvent.timerFire ∈
        [SuggestEvent.timerFire, SuggestEvent.main (some "ZD-1_a.txt")]) ∧
    (safeSuggestRun false
        [SuggestEvent.timerFire, SuggestEvent.main (some "ZD-1_a.txt")]).length = 1 :=
  ⟨by decide,
    (safeSuggest_exactly_once
      [SuggestEvent.timerFire, SuggestEvent.main (some "ZD-1_a.txt")]).2.1 (by decide)⟩

/-! ## C7: a Registry hit answers without any live query -/

/-- C7.  For a real tab identifier present in the Registry, the Resolver's
direct step returns the stored ticket id, leaves the Registry unchanged,
and issues no collaborator call at all. -/
theorem resolver_registry_hit_no_query (env : Env) (reg : Registry) (tabId : Int)
    (t : String) (hreal : tabId ≠ -1) (hhit : reg tabId = some t) :
    getTicketIdForTab env reg tabId = ⟨some t, reg, []⟩ := by
  simp [getTicketIdForTab, hhit]

/-- Witness for C7: tab `42` cached with ticket `"9"`. -/
theorem resolver_registry_hit_no_query_witness :
    ((42 : Int) ≠ -1) ∧
    getTicketIdForTab ⟨DEFAULT_SETTINGS, (fun _ => none), none, [], true⟩
        (Registry.set Registry.emptyReg 42 "9") 42 =
      ⟨some "9", Registry.set Registry.emptyReg 42 "9", []⟩ :=
  ⟨by decide,
    resolver_registry_hit_no_query ⟨DEFAULT_SETTINGS, (fun _ => none), none, [], true⟩
      (Registry.set Registry.emptyReg 42 "9") 42 "9" (by decide) rfl⟩

/-! ## C8: template lookup is total with a default -/

/-- C8.  For every format identifier, including unknown identifiers and the
missing (`undefined`) case, the template lookup returns one of the defined
templates; and whenever the identifier matches no entry of the fixed set,
it returns the `prefix_underscore` default template. -/
theorem getFormatTemplate_total_default (formatId : Option String) :
    getFormatTemplate formatId ∈ FILENAME_FORMATS.map FormatRec.template ∧
    ((∀ f ∈ FILENAME_FORMATS, formatId ≠ some f.id) →
      getFormatTemplate formatId = FILENAME_FORMATS_PREFIX_UNDERSCORE.template) := by
  constructor
  · unfold getFormatTemplate
    cases h : FILENAME_FORMATS.find? (fun f => formatId == some f.id) with
    | none =>
      simp only []
      exact List.mem_map.mpr ⟨FILENAME_FORMATS_PREFIX_UNDERSCORE, by decide, rfl⟩
    | some f =>
      exact List.mem_map.mpr ⟨f, List.mem_of_find?_eq_some h, rfl⟩
  · intro hall
    unfold getFormatTemplate
    cases h : FILENAME_FORMATS.find? (fun f => formatId == some f.id) with
    | none => rfl
    | some f =>
      have hp := List.find?_some h
      exact absurd (eq_of_beq hp) (hall f (List.mem_of_find?_eq_some h))

/-- Witness for C8 at the unknown identifier `"garbage"`. -/
theorem getFormatTemplate_total_default_witness :
    getFormatTemplate (some "garbage") = FILENAME_FORMATS_PREFIX_UNDERSCORE.template :=
  (getFormatTemplate_total_default (some "garbage")).2 (by decide)

/-! ## C9: the recognized-domain check is total -/

/-- C9.  The recognized-domain check returns a boolean on every input
string (the embedding is a total boolean function, mirroring the source's
`try`/`catch` that converts every URL-constructor throw into `false`): any
input on which the URL parse fails yields `false`, and in particular the
empty referrer and a non-URL referrer yield `false` rather than aborting
the decision. -/
theorem isZendeskUrl_total (url : String) :
    (isZendeskUrl url = true ∨ isZendeskUrl url = false) ∧
    (parseURL url = none → isZendeskUrl url = false) ∧
    isZendeskUrl "" = false ∧
    isZendeskUrl "not a url" = false := by
  refine ⟨?_, ?_, by decide, by decide⟩
  · cases h : isZendeskUrl url
    · exact Or.inr rfl
    · exact Or.inl rfl
  · intro h
    simp [isZendeskUrl, h]

/-- Witness for C9 at the empty string, whose parse fails. -/
theorem isZendeskUrl_total_witness :
    parseURL "" = none ∧ isZendeskUrl "" = false :=
  ⟨rfl, (isZendeskUrl_total "").2.1 rfl⟩

/-! ## C3: unrecognized referrer with no tab identifier keeps the original -/

/-- C3.  For every download whose referrer is not in the recognized domain
set and whose tab identifier is absent — whether as a missing property or
as the `-1` sentinel — the Decision Engine suggests no change.  (With the
missing property the early guard fires; with the `-1` sentinel the guard
does not fire, because `-1` is truthy in JavaScript, but every resolution
step is skipped and the no-ticket branch keeps the original name.) -/
theorem nonzendesk_no_tab_keeps_original (env : Env) (reg : Registry)
    (item : DownloadItem)
    (href : isZendeskUrl (item.referrer.getD "") = false)
    (htab : item.tabId = none ∨ item.tabId = some (-1)) :
    (handleDownloadFilename env reg item).suggestion = none := by
  by_cases hen : env.settings.enabled
  · rcases htab with h | h <;>
      simp [handleDownloadFilename, href, h, hen, jsTruthyOptInt, jsTruthyOptStr]
  · simp [handleDownloadFilename, hen]

/-- Witness for C3: a download from `example.com` with no tab id. -/
theorem nonzendesk_no_tab_keeps_original_witness :
    isZendeskUrl "https://example.com/x" = false ∧
    (handleDownloadFilename
        ⟨DEFAULT_SETTINGS, (fun _ => none), none, [], true⟩ Registry.emptyReg
        ⟨"a.txt", some "https://example.com/x", none⟩).suggestion = none :=
  ⟨by decide,
    nonzendesk_no_tab_keeps_original
      ⟨DEFAULT_SETTINGS, (fun _ => none), none, [], true⟩ Registry.emptyReg
      ⟨"a.txt", some "https://example.com/x", none⟩ (by decide) (Or.inl rfl)⟩

/-! ## C4: scenario C — live query fills the cache and renames -/

/-- C4.  A download from tab `42` with no Registry entry for `42`, a
recognized referrer, and a live content-script query answering ticket
`"555"`: the Decision Engine suggests the reconstructed path with `"555"`
applied through the active template, and afterwards the Registry maps `42`
to `"555"`. -/
theorem scenarioC_rename_and_cache (env : Env) (reg : Registry) (item : DownloadItem)
    (hen : env.settings.enabled = true)
    (htab : item.tabId = some 42)
    (hmiss : reg 42 = none)
    (href : isZendeskUrl (item.referrer.getD "") = true)
    (hq : env.queryTab 42 = some "555")
    (hnotren : isAlreadyRenamed (extractFilename item.filename) = false) :
    (handleDownloadFilename env reg item).suggestion =
      some (reconstructPath item.filename
        (formatFilename (extractFilename item.filename) "555"
          (getFormatTemplate env.settings.format))) ∧
    (handleDownloadFilename env reg item).reg 42 = some "555" := by
  simp [handleDownloadFilename, getTicketIdForTab, hen, htab, hmiss, href, hq, hnotren,
    jsTruthyOptInt, jsTruthyOptStr, Registry.set]

/-- Witness for C4: the concrete scenario-C download, fully evaluated. -/
theorem scenarioC_rename_and_cache_witness :
    (handleDownloadFilename
        ⟨⟨true, some "prefix_underscore"⟩,
          (fun i => if i = 42 then some "555" else none), none, [], true⟩
        Registry.emptyReg
        ⟨"subdir/debug.log", some "https://a.zendesk.com/t", some 42⟩).suggestion =
      some (reconstructPath "subdir/debug.log"
        (formatFilename (extractFilename "subdir/debug.log") "555"
          (getFormatTemplate (some "prefix_underscore")))) ∧
    (handleDownloadFilename
        ⟨⟨true, some "prefix_underscore"⟩,
          (fun i => if i = 42 then some "555" else none), none, [], true⟩
        Registry.emptyReg
        ⟨"subdir/debug.log", some "https://a.zendesk.com/t", some 42⟩).reg 42 =
      some "555" :=
  scenarioC_rename_and_cache
    ⟨⟨true, some "prefix_underscore"⟩,
      (fun i => if i = 42 then some "555" else none), none, [], true⟩
    Registry.emptyReg
    ⟨"subdir/debug.log", some "https://a.zendesk.com/t", some 42⟩
    rfl rfl rfl (by decide) (by decide) (by decide)

/-! ## C6: the Registry reflects the last applicable event -/

/-- One dispatched event changes the entry of tab `i` exactly as
`eventAction` prescribes, and leaves it alone otherwise. -/
theorem applyRegEvent_eventAction (reg : Registry) (e : RegEvent) (i : Int) :
    applyRegEvent reg e i =
      match eventAction i e with
      | some v => v
      | none => reg i := by
  cases e with
  | messageEvent m s =>
    simp only [applyRegEvent, handleMessage, eventAction]
    by_cases hk : m.kind == MESSAGE_TYPES_TICKET_UPDATE
    · simp only [hk, if_true, Bool.true_and]
      cases s with
      | none => simp
      | some tabId =>
        by_cases hi : i = tabId
        · subst hi
          by_cases hz : i = (0 : Int)
          · subst hz; simp
          · cases m.ticketId with
            | none => simp [hz, Registry.del]
            | some t =>
              by_cases ht : t = ""
              · subst ht; simp [hz, Registry.del]
              · simp [hz, ht, Registry.set]
        · have hi2 : ¬ tabId = i := fun h => hi h.symm
          by_cases hz : tabId = (0 : Int)
          · subst hz; simp [hi2]
          · cases m.ticketId with
            | none => simp [hz, hi, hi2, Registry.del]
            | some t =>
              by_cases ht : t = ""
              · subst ht; simp [hz, hi, hi2, Registry.del]
              · simp [hz, hi, hi2, ht, Registry.set]
    · simp [hk]
  | tabRemoved t =>
    by_cases hi : i = t
    · subst hi; simp [applyRegEvent, handleTabRemoved, eventAction, Registry.del]
    · have hi2 : ¬ t = i := fun h => hi h.symm
      simp [applyRegEvent, handleTabRemoved, eventAction, Registry.del, hi, hi2]
  | tabUpdated t u =>
    cases u with
    | none => simp [applyRegEvent, handleTabUpdated, eventAction]
    | some s =>
      by_cases hi : i = t
      · subst hi
        by_cases hs : s = ""
        · subst hs; simp [applyRegEvent, handleTabUpdated, eventAction]
        · by_cases hz : isZendeskUrl s <;>
            simp [applyRegEvent, handleTabUpdated, eventAction, hs, hz, Registry.del]
      · have hi2 : ¬ t = i := fun h => hi h.symm
        by_cases hs : s = ""
        · subst hs; simp [applyRegEvent, handleTabUpdated, eventAction, hi2]
        · by_cases hz : isZendeskUrl s <;>
            simp [applyRegEvent, handleTabUpdated, eventAction, hs, hz, hi, hi2, Registry.del]

/-- C6.  After any finite sequence of registry-mutating events (ticket
notifications with truthy or null ticket ids, tab-closed events,
tab-updated events), the Registry entry of every tab `i` reflects exactly
the last event of the sequence applicable to `i` — the stored value of a
last truthy notification, absence after a last removal — and the starting
value when no event applied to `i`. -/
theorem registry_last_event_wins (es : List RegEvent) (reg : Registry) (i : Int) :
    applyRegEvents reg es i =
      match lastWriteFor i es with
      | some v => v
      | none => reg i := by
  induction es generalizing reg with
  | nil => rfl
  | cons e rest ih =>
    simp only [applyRegEvents, List.foldl_cons, lastWriteFor]
    have h1 := ih (applyRegEvent reg e)
    simp only [applyRegEvents] at h1
    rw [h1, applyRegEvent_eventAction]
    cases hrest : lastWriteFor i rest <;> cases hact : eventAction i e <;> simp

/-! ## C10: the all-tabs fallback only ever queries `*.zendesk.com` tabs -/

/-- Every cross-tab message issued by the content-script loop targets a tab
of the list it traverses. -/
theorem queryTabsLoop_log_targets (env : Env) (reg : Registry) (tabs : List Tab) (i : Int)
    (h : QueryEvent.sendMessage i ∈ (queryTabsLoop env reg tabs).log) :
    ∃ t ∈ tabs, t.id = i := by
  induction tabs generalizing reg with
  | nil => simp [queryTabsLoop] at h
  | cons t rest ih =>
    simp only [queryTabsLoop] at h
    cases hq : env.queryTab t.id with
    | some s =>
      rw [hq] at h
      by_cases hs : s = ""
      · subst hs
        simp at h
        rcases h with h | h
        · exact ⟨t, List.mem_cons_self t rest, h.symm⟩
        · obtain ⟨u, hu, hid⟩ := ih reg h
          exact ⟨u, List.mem_cons_of_mem t hu, hid⟩
      · simp [hs] at h
        exact ⟨t, List.mem_cons_self t rest, h.symm⟩
    | none =>
      rw [hq] at h
      simp at h
      rcases h with h | h
      · exact ⟨t, List.mem_cons_self t rest, h.symm⟩
      · obtain ⟨u, hu, hid⟩ := ih reg h
        exact ⟨u, List.mem_cons_of_mem t hu, hid⟩

/-- C10.  The all-tabs fallback enumerates only tabs matching
`*://*.zendesk.com/*`: every cross-tab message it issues targets an open
tab whose URL matches that pattern.  Tabs on the other recognized domains
are never candidates, although the recognized-domain check accepts them:
concretely, `zdusercontent.com`, `zdassets.com` and `localhost` URLs pass
`isZendeskUrl` but fail the tab-query pattern. -/
theorem zendesk_tab_fallback_candidates :
    (∀ (env : Env) (reg : Registry) (i : Int),
       QueryEvent.sendMessage i ∈ (fallbackAllZendeskTabs env reg).log →
       ∃ t ∈ env.allTabs, t.id = i ∧ matchesZendeskTabPattern t.url = true) ∧
    isZendeskUrl "https://files.zdusercontent.com/a" = true ∧
    matchesZendeskTabPattern "https://files.zdusercontent.com/a" = false ∧
    isZendeskUrl "https://static.zdassets.com/a" = true ∧
    matchesZendeskTabPattern "https://static.zdassets.com/a" = false ∧
    isZendeskUrl "http://localhost/a" = true ∧
    matchesZendeskTabPattern "http://localhost/a" = false := by
  refine ⟨?_, by decide, by decide, by decide, by decide, by decide, by decide⟩
  intro env reg i h
  unfold fallbackAllZendeskTabs at h
  by_cases hok : env.allTabsQueryOk
  · simp only [hok, if_true] at h
    by_cases hc : jsTruthyOptStr
        ((env.allTabs.filter (fun t => matchesZendeskTabPattern t.url)).findSome?
          (fun t => reg t.id))
    · simp [hc] at h
    · simp only [hc, Bool.false_eq_true, if_false, List.mem_cons] at h
      rcases h with h | h
      · exact absurd h (by simp)
      · obtain ⟨t, ht, hid⟩ := queryTabsLoop_log_targets env reg _ i h
        rw [List.mem_filter] at ht
        exact ⟨t, ht.1, hid, ht.2⟩
  · simp [hok] at h

/-- Witness for C10: a run whose environment holds one `zdusercontent` tab
and one `zendesk.com` tab; the message the fallback issues targets the
`zendesk.com` tab. -/
theorem zendesk_tab_fallback_candidates_witness :
    ∃ t ∈ [(⟨7, "https://f.zdusercontent.com/a"⟩ : Tab),
           (⟨8, "https://a.zendesk.com/t"⟩ : Tab)],
      t.id = 8 ∧ matchesZendeskTabPattern t.url = true :=
  zendesk_tab_fallback_candidates.1
    ⟨DEFAULT_SETTINGS, (fun i => if i = 7 then some "111" else none), none,
      [⟨7, "https://f.zdusercontent.com/a"⟩, ⟨8, "https://a.zendesk.com/t"⟩], true⟩
    Registry.emptyReg 8 (by decide)

/-! ## C5: path reconstruction round-trip -/

/-- `listLastIdx` finds nothing when the character does not occur. -/
theorem listLastIdx_eq_none_of_not_mem (c : Char) (l : List Char) (h : c ∉ l) :
    listLastIdx c l = none := by
  induction l with
  | nil => rfl
  | cons x xs ih =>
    rw [List.mem_cons, not_or] at h
    rw [listLastIdx, ih h.2]
    simp [Ne.symm h.1]

/-- A suffix free of the character does not move the last index. -/
theorem listLastIdx_append_right_none (c : Char) (l1 l2 : List Char)
    (h : listLastIdx c l2 = none) :
    listLastIdx c (l1 ++ l2) = listLastIdx c l1 := by
  induction l1 with
  | nil => simpa using h
  | cons x xs ih => simp only [List.cons_append, listLastIdx, List.append_eq, ih]

/-- Last index across appending one final character. -/
theorem listLastIdx_concat (c x : Char) (l : List Char) :
    listLastIdx c (l ++ [x]) = if x = c then some l.length else listLastIdx c l := by
  induction l with
  | nil => simp [listLastIdx]
  | cons y ys ih =>
    simp only [List.cons_append, listLastIdx, List.append_eq, ih]
    by_cases hx : x = c
    · simp [hx]
    · simp [hx]

/-- The last index is a position inside the list. -/
theorem listLastIdx_lt_length (c : Char) (l : List Char) (n : Nat)
    (h : listLastIdx c l = some n) : n < l.length := by
  induction l generalizing n with
  | nil => simp [listLastIdx] at h
  | cons x xs ih =>
    rw [listLastIdx] at h
    cases hx : listLastIdx c xs with
    | some m =>
      rw [hx] at h
      injection h with h2
      subst h2
      exact Nat.succ_lt_succ (ih m hx)
    | none =>
      rw [hx] at h
      by_cases hxc : x = c
      · simp [hxc] at h
        subst h
        simp
      · simp [hxc] at h

/-- C5.  Path reconstruction round-trips: for every original path with a
directory prefix `d` ending in a separator (either slash, preserved as-is)
and a separator-free basename `b`, `reconstructPath` yields `d` followed by
the new name; and for every original path containing no separator at all
it yields the new name exactly. -/
theorem reconstructPath_roundtrip :
    (∀ (d b neu : String) (d0 : List Char) (sep : Char),
       isSepChar sep = true → d.data = d0 ++ [sep] →
       (∀ c ∈ b.data, isSepChar c = false) →
       reconstructPath (d ++ b) neu = d ++ neu) ∧
    (∀ (p neu : String), (∀ c ∈ p.data, isSepChar c = false) →
       reconstructPath p neu = neu) := by
  have hdata : ∀ (s t : String), (s ++ t).data = s.data ++ t.data := by
    intro s t
    cases s; cases t; rfl
  have hmk : ∀ (d : String) (l : List Char), d.data = l → d = ⟨l⟩ := by
    intro d l h
    exact String.ext h
  have hnotmem : ∀ (c : Char) (b : String), isSepChar c = true →
      (∀ x ∈ b.data, isSepChar x = false) → c ∉ b.data := by
    intro c b hc hb hmem
    rw [hb c hmem] at hc
    exact Bool.false_ne_true hc
  constructor
  · intro d b neu d0 sep hsep hd hb
    have hsl : sep = '/' ∨ sep = '\\' := by simpa [isSepChar] using hsep
    have hL : (d ++ b).data = (d0 ++ [sep]) ++ b.data := by rw [hdata, hd]
    have hslash : listLastIdx '/' b.data = none :=
      listLastIdx_eq_none_of_not_mem _ _ (hnotmem '/' b (by decide) hb)
    have hback : listLastIdx '\\' b.data = none :=
      listLastIdx_eq_none_of_not_mem _ _ (hnotmem '\\' b (by decide) hb)
    have h1 : listLastIdx '/' ((d0 ++ [sep]) ++ b.data) =
        if sep = '/' then some d0.length else listLastIdx '/' d0 := by
      rw [listLastIdx_append_right_none _ _ _ hslash, listLastIdx_concat]
    have h2 : listLastIdx '\\' ((d0 ++ [sep]) ++ b.data) =
        if sep = '\\' then some d0.length else listLastIdx '\\' d0 := by
      rw [listLastIdx_append_right_none _ _ _ hback, listLastIdx_concat]
    have hmax : max (jsLastIndexOf (d ++ b).data '/') (jsLastIndexOf (d ++ b).data '\\') =
        (d0.length : Int) := by
      rw [hL]
      rcases hsl with h | h
      · subst h
        have e1 : jsLastIndexOf ((d0 ++ ['/']) ++ b.data) '/' = (d0.length : Int) := by
          rw [jsLastIndexOf, h1, if_pos rfl]
        have e2 : jsLastIndexOf ((d0 ++ ['/']) ++ b.data) '\\' ≤ (d0.length : Int) := by
          rw [jsLastIndexOf, h2, if_neg (by decide)]
          cases hb2 : listLastIdx '\\' d0 with
          | none =>
            show (-1 : Int) ≤ (d0.length : Int)
            omega
          | some m =>
            have hlt := listLastIdx_lt_length '\\' d0 m hb2
            show (m : Int) ≤ (d0.length : Int)
            omega
        rw [e1]
        exact max_eq_left e2
      · subst h
        have e1 : jsLastIndexOf ((d0 ++ ['\\']) ++ b.data) '\\' = (d0.length : Int) := by
          rw [jsLastIndexOf, h2, if_pos rfl]
        have e2 : jsLastIndexOf ((d0 ++ ['\\']) ++ b.data) '/' ≤ (d0.length : Int) := by
          rw [jsLastIndexOf, h1, if_neg (by decide)]
          cases hb2 : listLastIdx '/' d0 with
          | none =>
            show (-1 : Int) ≤ (d0.length : Int)
            omega
          | some m =>
            have hlt := listLastIdx_lt_length '/' d0 m hb2
            show (m : Int) ≤ (d0.length : Int)
            omega
        rw [e1]
        exact max_eq_right e2
    rw [reconstructPath, hmax]
    have hne : ¬ ((d0.length : Int) = -1) := by omega
    rw [if_neg hne]
    have htn : ((d0.length : Int) + 1).toNat = d0.length + 1 := by omega
    rw [htn, hL]
    have htake : ((d0 ++ [sep]) ++ b.data).take (d0.length + 1) = d0 ++ [sep] := by
      have hlen : (d0 ++ [sep]).length = d0.length + 1 := by simp
      rw [← hlen, List.take_left]
    rw [htake, hmk d (d0 ++ [sep]) hd]
  · intro p neu hp
    have h1 : listLastIdx '/' p.data = none :=
      listLastIdx_eq_none_of_not_mem _ _ (hnotmem '/' p (by decide) hp)
    have h2 : listLastIdx '\\' p.data = none :=
      listLastIdx_eq_none_of_not_mem _ _ (hnotmem '\\' p (by decide) hp)
    rw [reconstructPath]
    simp [jsLastIndexOf, h1, h2]

/-- Witness for C5: scenario B's directory path and a separator-free
path. -/
theorem reconstructPath_roundtrip_witness :
    reconstructPath ("subdir/" ++ "original.log") "ZD-123_original.log" =
      "subdir/" ++ "ZD-123_original.log" ∧
    reconstructPath "original.log" "ZD-123_original.log" = "ZD-123_original.log" :=
  ⟨reconstructPath_roundtrip.1 "subdir/" "original.log" "ZD-123_original.log"
      "subdir".data '/' (by decide) (by decide) (by decide),
    reconstructPath_roundtrip.2 "original.log" "ZD-123_original.log" (by decide)⟩

/-! ## C1: idempotence of the already-renamed guard

The guard tests only the `ZD-` prefix and the bracketed-numeric shape, so
it recognizes the output of the `prefix_underscore` and `bracket`
templates but not of the `minimal` one. -/

/-- One-step unfolding of `replaceFirstGo` as a plain equation. -/
theorem replaceFirstGo_eq (pat repl seen s : List Char) :
    replaceFirstGo pat repl seen s =
      if pat.isPrefixOf s then
        seen.reverse ++ jsSubstitution repl pat seen.reverse (s.drop pat.length)
          ++ s.drop pat.length
      else
        match s with
        | [] => seen.reverse
        | c :: rest => replaceFirstGo pat repl (c :: seen) rest := by
  cases s <;> rfl

/-- A replacement character other than `$` is copied verbatim. -/
theorem jsSubstitution_cons_plain (c : Char) (r m b a : List Char) (hc : ¬ c = '$') :
    jsSubstitution (c :: r) m b a = c :: jsSubstitution r m b a := by
  rw [jsSubstitution.eq_def]
  simp only [hc, if_false]

/-- A replacement string without `$` is inserted verbatim. -/
theorem jsSubstitution_no_dollar (repl m b a : List Char)
    (h : ∀ c ∈ repl, c ≠ '$') :
    jsSubstitution repl m b a = repl := by
  induction repl with
  | nil => rfl
  | cons c r ih =>
    rw [jsSubstitution_cons_plain c r m b a (h c (List.mem_cons_self c r)),
      ih (fun x hx => h x (List.mem_cons_of_mem c hx))]

/-- A pattern cannot match at a position whose character differs from the
pattern's head. -/
theorem isPrefixOf_cons_ne (p c : Char) (pt s : List Char) (h : ¬ c = p) :
    (p :: pt).isPrefixOf (c :: s) = false := by
  simp [List.isPrefixOf]
  intro h2
  exact absurd h2.symm h

/-- A list is a prefix of itself followed by anything. -/
theorem isPrefixOf_self_append (l r : List Char) : l.isPrefixOf (l ++ r) = true := by
  induction l with
  | nil => simp
  | cons c cs ih => simp [List.isPrefixOf, ih]

/-- The scan of `replaceFirstGo` passes over a segment containing no
occurrence of the pattern's head character. -/
theorem replaceFirstGo_skip (p : Char) (pt repl mid : List Char)
    (hmid : ∀ c ∈ mid, ¬ c = p) (seen s : List Char) :
    replaceFirstGo (p :: pt) repl seen (mid ++ s) =
      replaceFirstGo (p :: pt) repl (mid.reverse ++ seen) s := by
  induction mid generalizing seen with
  | nil => simp
  | cons c m ih =>
    have hc := hmid c (List.mem_cons_self c m)
    rw [List.cons_append, replaceFirstGo_eq,
      isPrefixOf_cons_ne p c pt (m ++ s) hc]
    simp only [Bool.false_eq_true, if_false]
    rw [ih (fun x hx => hmid x (List.mem_cons_of_mem c hx)) (c :: seen)]
    simp [List.append_assoc]

/-- The scan of `replaceFirstGo` fires exactly at an occurrence of the
pattern. -/
theorem replaceFirstGo_found (pat repl seen after : List Char) :
    replaceFirstGo pat repl seen (pat ++ after) =
      seen.reverse ++ jsSubstitution repl pat seen.reverse after ++ after := by
  rw [replaceFirstGo_eq, if_pos (isPrefixOf_self_append pat after), List.drop_left]

/-- `takeWhile` passes over a segment all of whose members satisfy the
predicate. -/
theorem takeWhile_append_all (p : Char → Bool) (l1 l2 : List Char)
    (h : ∀ c ∈ l1, p c = true) :
    (l1 ++ l2).takeWhile p = l1 ++ l2.takeWhile p := by
  induction l1 with
  | nil => rfl
  | cons c m ih =>
    rw [List.cons_append, List.takeWhile_cons, h c (List.mem_cons_self c m),
      ih (fun x hx => h x (List.mem_cons_of_mem c hx))]
    rfl

/-- `dropWhile` passes over a segment all of whose members satisfy the
predicate. -/
theorem dropWhile_append_all (p : Char → Bool) (l1 l2 : List Char)
    (h : ∀ c ∈ l1, p c = true) :
    (l1 ++ l2).dropWhile p = l2.dropWhile p := by
  induction l1 with
  | nil => rfl
  | cons c m ih =>
    rw [List.cons_append, List.dropWhile_cons, h c (List.mem_cons_self c m),
      ih (fun x hx => h x (List.mem_cons_of_mem c hx))]
    rfl

/-- A digit is not the dollar sign. -/
theorem digit_ne_dollar {c : Char} (h : c.isDigit = true) : c ≠ '$' := by
  intro he
  subst he
  exact absurd h (by decide)

/-- A digit is not an opening brace. -/
theorem digit_ne_lbrace {c : Char} (h : c.isDigit = true) : ¬ c = '{' := by
  intro he
  subst he
  exact absurd h (by decide)

/-- The output of the `prefix_underscore` template is caught by the
already-renamed guard, whatever the original name: it starts with `ZD-`. -/
theorem format_prefix_underscore_detected (n t : String)
    (hdig : ∀ c ∈ t.data, c.isDigit = true) :
    isAlreadyRenamed (formatFilename n t "ZD-{ticket}_{filename}") = true := by
  have hno : ∀ c ∈ t.data, c ≠ '$' := fun c hc => digit_ne_dollar (hdig c hc)
  have hdataeq : (formatFilename n t "ZD-{ticket}_{filename}").data
      = replaceFirstGo "{filename}".data n.data []
          (replaceFirstGo "{ticket}".data t.data [] "ZD-{ticket}_{filename}".data) := rfl
  have ep : "{ticket}".data = '{' :: "ticket\x7d".data := by decide
  have ef : "{filename}".data = '{' :: "filename\x7d".data := by decide
  have hinner : replaceFirstGo "{ticket}".data t.data [] "ZD-{ticket}_{filename}".data
      = ['Z', 'D', '-'] ++ (t.data ++ "_{filename}".data) := by
    have e0 : "ZD-{ticket}_{filename}".data =
        ['Z', 'D', '-'] ++ ("{ticket}".data ++ "_{filename}".data) := by decide
    rw [e0, ep,
      replaceFirstGo_skip '{' "ticket\x7d".data t.data ['Z', 'D', '-'] (by decide) []
        (('{' :: "ticket\x7d".data) ++ "_{filename}".data),
      replaceFirstGo_found]
    have hrev : ((['Z', 'D', '-'].reverse ++ ([] : List Char)).reverse) = ['Z', 'D', '-'] := by
      decide
    rw [hrev, jsSubstitution_no_dollar t.data _ _ _ hno]
    simp [List.append_assoc]
  have eshape : ['Z', 'D', '-'] ++ (t.data ++ "_{filename}".data)
      = (['Z', 'D', '-'] ++ (t.data ++ ['_'])) ++ ("{filename}".data ++ []) := by
    have e1 : "_{filename}".data = '_' :: "{filename}".data := by decide
    rw [e1]
    simp
  have hmid : ∀ c ∈ ['Z', 'D', '-'] ++ (t.data ++ ['_']), ¬ c = '{' := by
    intro c hc
    rcases List.mem_append.mp hc with h1 | h2
    · simp at h1
      rcases h1 with rfl | rfl | rfl <;> decide
    · rcases List.mem_append.mp h2 with h3 | h4
      · exact digit_ne_lbrace (hdig c h3)
      · simp at h4
        subst h4
        decide
  have houter : (formatFilename n t "ZD-{ticket}_{filename}").data
      = (['Z', 'D', '-'] ++ (t.data ++ ['_'])) ++
          jsSubstitution n.data ('{' :: "filename\x7d".data)
            (((['Z', 'D', '-'] ++ (t.data ++ ['_'])).reverse ++ []).reverse) [] := by
    rw [hdataeq, hinner, eshape, ef,
      replaceFirstGo_skip '{' "filename\x7d".data n.data
        (['Z', 'D', '-'] ++ (t.data ++ ['_'])) hmid []
        (('{' :: "filename\x7d".data) ++ []),
      replaceFirstGo_found]
    simp
  rw [isAlreadyRenamed, houter]
  have hzd : "ZD-".data = ['Z', 'D', '-'] := by decide
  rw [hzd]
  rw [List.append_assoc, isPrefixOf_self_append]
  simp

/-- Unfolding of the bracketed-shape test at an opening bracket. -/
theorem bracketTicketShape_cons_lbracket (rest : List Char) :
    bracketTicketShape ('[' :: rest) =
      (decide (rest.takeWhile Char.isDigit ≠ []) &&
        (match rest.dropWhile Char.isDigit with
         | ']' :: c :: _ => isJsSpace c
         | _ => false)) := by
  rfl

/-- The bracketed-shape test accepts a bracketed non-empty digit group
followed by a space. -/
theorem bracketTicketShape_explicit (ds rest : List Char) (hds : ds ≠ [])
    (hall : ∀ c ∈ ds, c.isDigit = true) :
    bracketTicketShape ('[' :: (ds ++ (']' :: ' ' :: rest))) = true := by
  have hq : Char.isDigit ']' = false := by decide
  rw [bracketTicketShape_cons_lbracket,
    takeWhile_append_all Char.isDigit ds _ hall,
    dropWhile_append_all Char.isDigit ds _ hall,
    List.takeWhile_cons, List.dropWhile_cons, hq]
  simp only [Bool.false_eq_true, if_false, List.append_nil]
  show (decide (ds ≠ []) && isJsSpace ' ') = true
  rw [show isJsSpace ' ' = true from by decide]
  simp [hds]

/-- The output of the `bracket` template is caught by the already-renamed
guard, whatever the original name: it has the bracketed-numeric shape. -/
theorem format_bracket_detected (n t : String) (hnz : t ≠ "")
    (hdig : ∀ c ∈ t.data, c.isDigit = true) :
    isAlreadyRenamed (formatFilename n t "[{ticket}] {filename}") = true := by
  have hno : ∀ c ∈ t.data, c ≠ '$' := fun c hc => digit_ne_dollar (hdig c hc)
  have hne : t.data ≠ [] := by
    intro h
    exact hnz (String.ext h)
  have hdataeq : (formatFilename n t "[{ticket}] {filename}").data
      = replaceFirstGo "{filename}".data n.data []
          (replaceFirstGo "{ticket}".data t.data [] "[{ticket}] {filename}".data) := rfl
  have ep : "{ticket}".data = '{' :: "ticket\x7d".data := by decide
  have ef : "{filename}".data = '{' :: "filename\x7d".data := by decide
  have hinner : replaceFirstGo "{ticket}".data t.data [] "[{ticket}] {filename}".data
      = ['['] ++ (t.data ++ "] {filename}".data) := by
    have e0 : "[{ticket}] {filename}".data =
        ['['] ++ ("{ticket}".data ++ "] {filename}".data) := by decide
    rw [e0, ep,
      replaceFirstGo_skip '{' "ticket\x7d".data t.data ['['] (by decide) []
        (('{' :: "ticket\x7d".data) ++ "] {filename}".data),
      replaceFirstGo_found]
    have hrev : ((['['].reverse ++ ([] : List Char)).reverse) = ['['] := by decide
    rw [hrev, jsSubstitution_no_dollar t.data _ _ _ hno]
    simp [List.append_assoc]
  have eshape : ['['] ++ (t.data ++ "] {filename}".data)
      = (['['] ++ (t.data ++ [']', ' '])) ++ ("{filename}".data ++ []) := by
    have e1 : "] {filename}".data = ']' :: ' ' :: "{filename}".data := by decide
    rw [e1]
    simp
  have hmid : ∀ c ∈ ['['] ++ (t.data ++ [']', ' ']), ¬ c = '{' := by
    intro c hc
    rcases List.mem_append.mp hc with h1 | h2
    · simp at h1
      subst h1
      decide
    · rcases List.mem_append.mp h2 with h3 | h4
      · exact digit_ne_lbrace (hdig c h3)
      · simp at h4
        rcases h4 with rfl | rfl <;> decide
  have houter : (formatFilename n t "[{ticket}] {filename}").data
      = (['['] ++ (t.data ++ [']', ' '])) ++
          jsSubstitution n.data ('{' :: "filename\x7d".data)
            (((['['] ++ (t.data ++ [']', ' '])).reverse ++ []).reverse) [] := by
    rw [hdataeq, hinner, eshape, ef,
      replaceFirstGo_skip '{' "filename\x7d".data n.data
        (['['] ++ (t.data ++ [']', ' '])) hmid []
        (('{' :: "filename\x7d".data) ++ []),
      replaceFirstGo_found]
    simp
  rw [isAlreadyRenamed, houter, List.append_assoc, List.append_assoc]
  simp only [List.cons_append, List.nil_append]
  rw [bracketTicketShape_explicit t.data _ hne hdig]
  simp

/-- Counterexample for C1 as stated: the `minimal` template is one of the
supported templates, `"123456"` is a non-empty digit string, yet the
already-renamed check rejects the formatted output `123456-debug.log`, so
`isAlreadyRenamed (format n t template)` is not true for every supported
template. -/
theorem alreadyRenamed_minimal_cex :
    FILENAME_FORMATS_MINIMAL ∈ FILENAME_FORMATS ∧
    ("123456" ≠ "" ∧ ∀ c ∈ "123456".data, c.isDigit = true) ∧
    isAlreadyRenamed (formatFilename "debug.log" "123456"
      FILENAME_FORMATS_MINIMAL.template) = false := by
  refine ⟨by decide, ⟨by decide, by decide⟩, by decide⟩

/-- C1 (amended).  For the `prefix_underscore` and `bracket` templates —
every supported template except `minimal` — and every original name `n`
and non-empty digit ticket id `t`, the already-renamed check accepts the
formatted output, so such names are never re-renamed. -/
theorem alreadyRenamed_after_format_nonminimal (tmpl : FormatRec)
    (hmem : tmpl ∈ FILENAME_FORMATS) (hne : tmpl.id ≠ "minimal")
    (n t : String) (hnz : t ≠ "") (hdig : ∀ c ∈ t.data, c.isDigit = true) :
    isAlreadyRenamed (formatFilename n t tmpl.template) = true := by
  simp only [FILENAME_FORMATS, List.mem_cons, List.mem_singleton,
    List.not_mem_nil, or_false] at hmem
  rcases hmem with rfl | rfl | rfl
  · exact format_prefix_underscore_detected n t hdig
  · exact format_bracket_detected n t hnz hdig
  · exact absurd rfl hne

/-- Witness for amended C1: scenario A's formatted name is detected. -/
theorem alreadyRenamed_after_format_nonminimal_witness :
    isAlreadyRenamed (formatFilename "debug.log" "123456"
      FILENAME_FORMATS_PREFIX_UNDERSCORE.template) = true :=
  alreadyRenamed_after_format_nonminimal FILENAME_FORMATS_PREFIX_UNDERSCORE
    (by decide) (by decide) "debug.log" "123456" (by decide) (by decide)

end ZendeskRenamer
